import Mathlib

/-!
Verification development for the markdown-mimic content-propagation tool
(`mimic.py`).  Python strings are modelled as Lean `String` (a structure
wrapping `List Char`); the regex `START[\s\S]+?END` used by the engine is
modelled by an explicit first-occurrence scan, which coincides with the
Python regex semantics for tag strings free of regex metacharacters (the
canonical `<!--MIMIC_<ID>_START-->` / `<!--MIMIC_<ID>_END-->` tags are).
-/

namespace Mimic

/-- `beginsWith pat s` holds when `pat` is an initial segment of `s`.
Used to model literal pattern occurrence at a position. -/
def beginsWith : List Char → List Char → Bool
  | [], _ => true
  | _ :: _, [] => false
  | a :: as, b :: bs => a == b && beginsWith as bs

/-- The literal pattern `pat` occurs in `s` at index `i`. -/
def occursAt (pat s : List Char) (i : Nat) : Bool :=
  beginsWith pat (s.drop i)

/-- Index of the first occurrence of `pat` in `s`, if any.  Models the
leftmost-match rule of `re.search` for a literal prefix. -/
def findSub (pat : List Char) : List Char → Option Nat
  | [] => if beginsWith pat [] then some 0 else none
  | c :: cs =>
    if beginsWith pat (c :: cs) then some 0
    else Option.map (fun k => k + 1) (findSub pat cs)

/-- Index of the first occurrence of `pat` in `s` at position `k` or later. -/
def findSubFrom (pat s : List Char) (k : Nat) : Option Nat :=
  Option.map (fun j => j + k) (findSub pat (s.drop k))

theorem findSubFrom_ge {pat s : List Char} {k q : Nat}
    (h : findSubFrom pat s k = some q) : k ≤ q := by
  unfold findSubFrom at h
  rcases Option.map_eq_some'.mp h with ⟨j, _, hj⟩
  omega

theorem beginsWith_nil_iff (pat : List Char) :
    beginsWith pat [] = true ↔ pat = [] := by
  cases pat <;> simp [beginsWith]

/-- If `findSub` finds nothing, the pattern occurs nowhere. -/
theorem occursAt_eq_false_of_findSub_none {pat s : List Char}
    (h : findSub pat s = none) : ∀ i, occursAt pat s i = false := by
  induction s with
  | nil =>
    intro i
    unfold findSub at h
    by_cases hb : beginsWith pat [] = true
    · rw [if_pos hb] at h
      exact absurd h (by simp)
    · unfold occursAt
      rw [List.drop_nil]
      exact Bool.eq_false_iff.mpr hb
  | cons c cs ih =>
    intro i
    unfold findSub at h
    by_cases hb : beginsWith pat (c :: cs) = true
    · rw [if_pos hb] at h
      exact absurd h (by simp)
    · rw [if_neg hb, Option.map_eq_none'] at h
      cases i with
      | zero =>
        unfold occursAt
        rw [List.drop_zero]
        exact Bool.eq_false_iff.mpr hb
      | succ j =>
        have := ih h j
        simpa [occursAt] using this

/-- If `findSub` finds index `p`, the pattern does occur at `p`. -/
theorem occursAt_of_findSub_some {pat s : List Char} {p : Nat}
    (h : findSub pat s = some p) : occursAt pat s p = true := by
  induction s generalizing p with
  | nil =>
    unfold findSub at h
    by_cases hb : beginsWith pat [] = true
    · simp [hb] at h
      simpa [occursAt, ← h] using hb
    · simp [hb] at h
  | cons c cs ih =>
    unfold findSub at h
    by_cases hb : beginsWith pat (c :: cs) = true
    · simp [hb] at h
      simpa [occursAt, ← h] using hb
    · simp [hb, Option.map_eq_some'] at h
      rcases h with ⟨j, hj, hjp⟩
      have := ih hj
      simpa [occursAt, ← hjp] using this

/-- A nonempty pattern found at `p` forces `p` within the haystack. -/
theorem findSub_lt_length {pat s : List Char} {p : Nat}
    (hpat : pat ≠ []) (h : findSub pat s = some p) : p < s.length := by
  induction s generalizing p with
  | nil =>
    unfold findSub at h
    by_cases hb : beginsWith pat [] = true
    · exact absurd ((beginsWith_nil_iff pat).mp hb) hpat
    · simp [hb] at h
  | cons c cs ih =>
    unfold findSub at h
    by_cases hb : beginsWith pat (c :: cs) = true
    · rw [if_pos hb] at h
      have hp : p = 0 := by simpa using h.symm
      simp only [hp, List.length_cons]
      omega
    · rw [if_neg hb, Option.map_eq_some'] at h
      rcases h with ⟨j, hj, hjp⟩
      have := ih hj
      simp only [List.length_cons]
      omega

/-- A nonempty pattern cannot occur at or past the end of the haystack. -/
theorem occursAt_eq_false_of_le_length {pat s : List Char} {j : Nat}
    (hpat : pat ≠ []) (hj : s.length ≤ j) : occursAt pat s j = false := by
  unfold occursAt
  have hdrop : s.drop j = [] := List.drop_eq_nil_of_le hj
  rw [hdrop]
  cases pat with
  | nil => exact absurd rfl hpat
  | cons a as => simp [beginsWith]

/-- If the pattern occurs somewhere, `findSub` succeeds. -/
theorem findSub_isSome_of_occursAt {pat s : List Char} {i : Nat}
    (h : occursAt pat s i = true) : (findSub pat s).isSome := by
  cases hf : findSub pat s with
  | none =>
    have := occursAt_eq_false_of_findSub_none hf i
    rw [h] at this
    exact absurd this (by simp)
  | some p => simp

/-- If the pattern occurs nowhere at or after `k`, `findSubFrom` fails. -/
theorem findSubFrom_eq_none {pat s : List Char} {k : Nat}
    (h : ∀ j, k ≤ j → occursAt pat s j = false) :
    findSubFrom pat s k = none := by
  unfold findSubFrom
  rw [Option.map_eq_none']
  cases hf : findSub pat (s.drop k) with
  | none => rfl
  | some p =>
    have hocc := occursAt_of_findSub_some hf
    unfold occursAt at hocc
    rw [List.drop_drop] at hocc
    have hnone : occursAt pat s (p + k) = false := h (p + k) (by omega)
    unfold occursAt at hnone
    rw [show k + p = p + k by omega] at hocc
    rw [hocc] at hnone
    exact absurd hnone (by simp)

/-!
### Region substitution engine — `generate_new_content`, mimic.py lines 71-81

The Python code builds the regex `f"{start_tag}[\s\S]+?{end_tag}"`, tests it
with `re.search`, and on success applies `re.sub` (which replaces every
non-overlapping match) with replacement
`f"{start_tag}\n{source_content}\n{end_tag}"`.  A match starts at the first
occurrence of the start tag and ends at the first occurrence of the end tag
at least one character past the start tag (lazy `+?`); scanning resumes
after the match.  `re.sub` additionally interprets backslash escapes in the
replacement string; the model inserts the replacement literally, so theorems
quantifying over template content restrict it to backslash-free strings. -/

/-- One `re.sub` pass for the pattern `S[\s\S]+?E`: repeatedly find the
leftmost match and splice in `repl`.  The fuel `s.length + 1` is always
sufficient because every match consumes at least one character. -/
def reSubGo (repl S E : List Char) : Nat → List Char → List Char
  | 0, s => s
  | n + 1, s =>
    if s.isEmpty then s
    else
      match findSub S s with
      | none => s
      | some p =>
        match findSubFrom E s (p + S.length + 1) with
        | none => s
        | some q => s.take p ++ repl ++ reSubGo repl S E n (s.drop (q + E.length))

/-- `re.sub(pattern, repl, s)` for the pattern `S[\s\S]+?E`. -/
def reSubAll (repl S E s : List Char) : List Char :=
  reSubGo repl S E (s.length + 1) s

/-- Truthiness of `re.search(f"{S}[\s\S]+?{E}", s)`: a match exists iff the
start tag occurs and the end tag occurs at least one character past it. -/
def re_search_pair (S E s : List Char) : Bool :=
  match findSub S s with
  | none => false
  | some p => (findSubFrom E s (p + S.length + 1)).isSome

/-- mimic.py lines 71-81: replace the marked section(s).  When the pattern is
absent a warning is logged (modelled by `re_search_pair … = false`) and the
target content is returned unchanged. -/
def generate_new_content (source_content target_content start_tag end_tag : String) : String :=
  if re_search_pair start_tag.data end_tag.data target_content.data then
    ⟨reSubAll (start_tag.data ++ ('\n' :: (source_content.data ++ ('\n' :: end_tag.data))))
      start_tag.data end_tag.data target_content.data⟩
  else
    target_content

/-- Fuel irrelevance: any fuel exceeding the haystack length gives the same
result, so `reSubAll`'s choice `s.length + 1` is canonical. -/
theorem reSubGo_fuel (repl S E : List Char) :
    ∀ f1 : Nat, ∀ f2 : Nat, ∀ s : List Char, s.length < f1 → s.length < f2 →
      reSubGo repl S E f1 s = reSubGo repl S E f2 s := by
  intro f1
  induction f1 with
  | zero => intro f2 s h1 _; omega
  | succ n1 ih =>
    intro f2 s h1 h2
    cases f2 with
    | zero => omega
    | succ n2 =>
      show reSubGo repl S E (n1 + 1) s = reSubGo repl S E (n2 + 1) s
      unfold reSubGo
      by_cases hs : s.isEmpty = true
      · rw [if_pos hs, if_pos hs]
      · rw [if_neg hs, if_neg hs]
        cases hf : findSub S s with
        | none => simp only []
        | some p =>
          simp only []
          cases hg : findSubFrom E s (p + S.length + 1) with
          | none => simp only []
          | some q =>
            simp only []
            have hq : p + S.length + 1 ≤ q := findSubFrom_ge hg
            have hlen : 0 < s.length := by
              cases s with
              | nil => simp [List.isEmpty] at hs
              | cons a l => simp
            have hdec : (s.drop (q + E.length)).length < s.length := by
              rw [List.length_drop]
              omega
            have h1' : (s.drop (q + E.length)).length < n1 := by omega
            have h2' : (s.drop (q + E.length)).length < n2 := by omega
            rw [ih n2 (s.drop (q + E.length)) h1' h2']

/-- Unfolding step of `reSubAll` when a match exists. -/
theorem reSubAll_step {repl S E s : List Char} (p q : Nat)
    (hs : s.isEmpty = false) (h1 : findSub S s = some p)
    (h2 : findSubFrom E s (p + S.length + 1) = some q) :
    reSubAll repl S E s =
      s.take p ++ repl ++ reSubAll repl S E (s.drop (q + E.length)) := by
  have hq : p + S.length + 1 ≤ q := findSubFrom_ge h2
  have hlen : 0 < s.length := by
    cases s with
    | nil => simp [List.isEmpty] at hs
    | cons a l => simp
  have hdec : (s.drop (q + E.length)).length < s.length := by
    rw [List.length_drop]
    omega
  conv_lhs => unfold reSubAll reSubGo
  rw [if_neg (by simp [hs]), h1]
  simp only []
  rw [h2]
  simp only []
  rw [reSubGo_fuel repl S E s.length ((s.drop (q + E.length)).length + 1)
    (s.drop (q + E.length)) (by omega) (by omega)]
  rfl

/-- `reSubAll` leaves the haystack unchanged when the start tag is absent. -/
theorem reSubAll_of_findSub_none {repl S E s : List Char}
    (h1 : findSub S s = none) : reSubAll repl S E s = s := by
  unfold reSubAll reSubGo
  by_cases hs : s.isEmpty = true
  · rw [if_pos hs]
  · rw [if_neg hs, h1]

/-- `reSubAll` leaves the haystack unchanged when no end tag follows. -/
theorem reSubAll_of_no_end {repl S E s : List Char} (p : Nat)
    (h1 : findSub S s = some p)
    (h2 : findSubFrom E s (p + S.length + 1) = none) :
    reSubAll repl S E s = s := by
  unfold reSubAll reSubGo
  by_cases hs : s.isEmpty = true
  · rw [if_pos hs]
  · rw [if_neg hs, h1]
    simp only []
    rw [h2]

theorem strData_append (a b : String) : (a ++ b).data = a.data ++ b.data := rfl

theorem strEq_of_data {a b : String} (h : a.data = b.data) : a = b := by
  cases a
  cases b
  exact congrArg String.mk h

/-- Template contents free of backslashes; for these, Python's `re.sub`
replacement-escape processing is the identity and the model is exact. -/
def noBackslash (s : String) : Bool :=
  s.data.all (fun c => c ≠ '\\')

theorem dataMk (l : List Char) : (String.mk l).data = l := rfl

/-- Canonical tag pair for a template with identifier `HEADER`
(mimic.py lines 176-177). -/
def hdrStart : String := "<!--MIMIC_HEADER_START-->"

def hdrEnd : String := "<!--MIMIC_HEADER_END-->"

/-- C2: For target content of the shape `startTag ++ " X " ++ endTag ++ " Y "
++ endTag` and template content `Z`, substitution replaces only through the
first end tag: the result is `startTag ++ "\n" ++ Z ++ "\n" ++ endTag ++ " Y "
++ endTag`, with the trailing `" Y " ++ endTag` untouched.  Stated for the
canonical `HEADER` tag pair and backslash-free template content. -/
theorem c2_nongreedy_region_bound (Z : String) (_hZ : noBackslash Z = true) :
    generate_new_content Z (hdrStart ++ " X " ++ hdrEnd ++ " Y " ++ hdrEnd) hdrStart hdrEnd =
      hdrStart ++ "\n" ++ Z ++ "\n" ++ hdrEnd ++ " Y " ++ hdrEnd := by
  apply strEq_of_data
  unfold generate_new_content
  rw [if_pos (show re_search_pair hdrStart.data hdrEnd.data
    (hdrStart ++ " X " ++ hdrEnd ++ " Y " ++ hdrEnd).data = true from by decide)]
  rw [dataMk]
  have h1 : findSub hdrStart.data (hdrStart ++ " X " ++ hdrEnd ++ " Y " ++ hdrEnd).data
      = some 0 := by decide
  have h2 : findSubFrom hdrEnd.data (hdrStart ++ " X " ++ hdrEnd ++ " Y " ++ hdrEnd).data
      (0 + hdrStart.data.length + 1) = some 28 := by decide
  rw [reSubAll_step 0 28 (by decide) h1 h2]
  rw [show List.drop (28 + hdrEnd.data.length)
      (hdrStart ++ " X " ++ hdrEnd ++ " Y " ++ hdrEnd).data
      = (" Y <!--MIMIC_HEADER_END-->" : String).data from by decide]
  rw [reSubAll_of_findSub_none (show findSub hdrStart.data
      (" Y <!--MIMIC_HEADER_END-->" : String).data = none from by decide)]
  rw [show List.take 0 (hdrStart ++ " X " ++ hdrEnd ++ " Y " ++ hdrEnd).data
      = ([] : List Char) from by decide]
  simp [strData_append, hdrStart, hdrEnd, List.append_assoc]

/-- Witness for C2 at template content `"Copyright 2024"`. -/
theorem c2_nongreedy_region_bound_witness :
    noBackslash "Copyright 2024" = true ∧
      generate_new_content "Copyright 2024"
          (hdrStart ++ " X " ++ hdrEnd ++ " Y " ++ hdrEnd) hdrStart hdrEnd =
        hdrStart ++ "\n" ++ "Copyright 2024" ++ "\n" ++ hdrEnd ++ " Y " ++ hdrEnd :=
  ⟨by decide, c2_nongreedy_region_bound "Copyright 2024" (by decide)⟩

theorem reSubAll_nil (repl S E : List Char) : reSubAll repl S E [] = [] := rfl

/-- C1 counterexample: on a target holding the `HEADER` tag pair twice,
`generate_new_content` (which calls `re.sub` with no count) rewrites BOTH
regions, not only the first, so "replaces only one region … never all
occurrences" is false. -/
theorem c1_counterexample :
    generate_new_content "Z"
        (hdrStart ++ " a " ++ hdrEnd ++ " m " ++ hdrStart ++ " b " ++ hdrEnd)
        hdrStart hdrEnd =
      hdrStart ++ "\n" ++ "Z" ++ "\n" ++ hdrEnd ++ " m " ++
        hdrStart ++ "\n" ++ "Z" ++ "\n" ++ hdrEnd ∧
    generate_new_content "Z"
        (hdrStart ++ " a " ++ hdrEnd ++ " m " ++ hdrStart ++ " b " ++ hdrEnd)
        hdrStart hdrEnd ≠
      hdrStart ++ "\n" ++ "Z" ++ "\n" ++ hdrEnd ++ " m " ++
        hdrStart ++ " b " ++ hdrEnd := by
  constructor
  · decide
  · decide

/-- C1 amended: a single call to the substitution engine rewrites every
non-overlapping occurrence of the tag pair (Python `re.sub` semantics),
deterministically, not only the first occurrence.  Stated for a target with
two disjoint `HEADER` regions and any backslash-free template content. -/
theorem c1_amended_replaces_all_occurrences (Z : String) (_hZ : noBackslash Z = true) :
    generate_new_content Z
        (hdrStart ++ " a " ++ hdrEnd ++ " m " ++ hdrStart ++ " b " ++ hdrEnd)
        hdrStart hdrEnd =
      hdrStart ++ "\n" ++ Z ++ "\n" ++ hdrEnd ++ " m " ++
        hdrStart ++ "\n" ++ Z ++ "\n" ++ hdrEnd := by
  apply strEq_of_data
  unfold generate_new_content
  rw [if_pos (show re_search_pair hdrStart.data hdrEnd.data
    (hdrStart ++ " a " ++ hdrEnd ++ " m " ++ hdrStart ++ " b " ++ hdrEnd).data = true
    from by decide)]
  rw [dataMk]
  have h1 : findSub hdrStart.data
      (hdrStart ++ " a " ++ hdrEnd ++ " m " ++ hdrStart ++ " b " ++ hdrEnd).data
      = some 0 := by decide
  have h2 : findSubFrom hdrEnd.data
      (hdrStart ++ " a " ++ hdrEnd ++ " m " ++ hdrStart ++ " b " ++ hdrEnd).data
      (0 + hdrStart.data.length + 1) = some 28 := by decide
  rw [reSubAll_step 0 28 (by decide) h1 h2]
  rw [show List.drop (28 + hdrEnd.data.length)
      (hdrStart ++ " a " ++ hdrEnd ++ " m " ++ hdrStart ++ " b " ++ hdrEnd).data
      = (" m <!--MIMIC_HEADER_START--> b <!--MIMIC_HEADER_END-->" : String).data
    from by decide]
  have h3 : findSub hdrStart.data
      (" m <!--MIMIC_HEADER_START--> b <!--MIMIC_HEADER_END-->" : String).data
      = some 3 := by decide
  have h4 : findSubFrom hdrEnd.data
      (" m <!--MIMIC_HEADER_START--> b <!--MIMIC_HEADER_END-->" : String).data
      (3 + hdrStart.data.length + 1) = some 31 := by decide
  rw [reSubAll_step 3 31 (by decide) h3 h4]
  rw [show List.drop (31 + hdrEnd.data.length)
      (" m <!--MIMIC_HEADER_START--> b <!--MIMIC_HEADER_END-->" : String).data
      = ([] : List Char) from by decide]
  rw [reSubAll_nil]
  rw [show List.take 0
      (hdrStart ++ " a " ++ hdrEnd ++ " m " ++ hdrStart ++ " b " ++ hdrEnd).data
      = ([] : List Char) from by decide]
  rw [show List.take 3
      (" m <!--MIMIC_HEADER_START--> b <!--MIMIC_HEADER_END-->" : String).data
      = (" m " : String).data from by decide]
  simp [strData_append, hdrStart, hdrEnd, List.append_assoc]

/-- Witness for the amended C1 at template content `"Z2"`. -/
theorem c1_amended_replaces_all_occurrences_witness :
    noBackslash "Z2" = true ∧
      generate_new_content "Z2"
          (hdrStart ++ " a " ++ hdrEnd ++ " m " ++ hdrStart ++ " b " ++ hdrEnd)
          hdrStart hdrEnd =
        hdrStart ++ "\n" ++ "Z2" ++ "\n" ++ hdrEnd ++ " m " ++
          hdrStart ++ "\n" ++ "Z2" ++ "\n" ++ hdrEnd :=
  ⟨by decide, c1_amended_replaces_all_occurrences "Z2" (by decide)⟩

/-- C10 counterexample: a target in which the start tag is immediately
followed by the end tag is NOT always left unchanged: when the end tag
occurs again later, the regex matches from the start tag through to that
later end tag and the content is rewritten. -/
theorem c10_counterexample :
    generate_new_content "Z" (hdrStart ++ hdrEnd ++ " tail " ++ hdrEnd)
        hdrStart hdrEnd ≠ hdrStart ++ hdrEnd ++ " tail " ++ hdrEnd ∧
    generate_new_content "Z" (hdrStart ++ hdrEnd ++ " tail " ++ hdrEnd)
        hdrStart hdrEnd = hdrStart ++ "\n" ++ "Z" ++ "\n" ++ hdrEnd := by
  constructor
  · decide
  · decide

/-- C10 amended: when the start tag is immediately followed by the end tag
and the end tag occurs nowhere later in the content, the pattern
`S[\s\S]+?E` (which requires at least one character between the tags) does
not match: substitution reports not-found and returns the content
unchanged.  A later end tag, however, can still complete a wider match. -/
theorem c10_adjacent_pair_not_matched (src : String) :
    generate_new_content src ("a " ++ hdrStart ++ hdrEnd ++ " b") hdrStart hdrEnd
        = "a " ++ hdrStart ++ hdrEnd ++ " b" ∧
      re_search_pair hdrStart.data hdrEnd.data
        ("a " ++ hdrStart ++ hdrEnd ++ " b").data = false := by
  constructor
  · unfold generate_new_content
    rw [if_neg (show ¬(re_search_pair hdrStart.data hdrEnd.data
        ("a " ++ hdrStart ++ hdrEnd ++ " b").data = true) from by decide)]
  · decide

/-- Python `pat in s` substring test, used by the driver's tag-presence
check (mimic.py line 195). -/
def containsSubstr (s pat : String) : Bool :=
  (findSub pat.data s.data).isSome

/-- C8 counterexample: with the canonical (uppercase) `HEADER` tag pair, a
target carrying the tags in lowercase is not matched at all — the engine
returns it unchanged and the driver's substring test fails — so there is no
case-insensitive detection mode whose match would succeed. -/
theorem c8_counterexample :
    generate_new_content "New"
        ("<!--mimic_header_start--> x <!--mimic_header_end-->") hdrStart hdrEnd
      = "<!--mimic_header_start--> x <!--mimic_header_end-->" ∧
    containsSubstr "<!--mimic_header_start--> x <!--mimic_header_end-->" hdrStart
      = false := by
  constructor
  · decide
  · decide

/-- C8 amended: tag matching is case-sensitive only (there is no
configuration for case-insensitive detection): targets carrying the tags in
non-canonical case are left unchanged, while exact-case targets are
rewritten with the canonical uppercase tags re-emitted around the template
content. -/
theorem c8_case_sensitive_canonical_tags :
    (∀ src : String, generate_new_content src
        ("<!--mimic_header_start--> x <!--mimic_header_end-->") hdrStart hdrEnd
      = "<!--mimic_header_start--> x <!--mimic_header_end-->") ∧
    (∀ Z : String, noBackslash Z = true →
      generate_new_content Z (hdrStart ++ " x " ++ hdrEnd) hdrStart hdrEnd
        = hdrStart ++ "\n" ++ Z ++ "\n" ++ hdrEnd) := by
  constructor
  · intro src
    unfold generate_new_content
    rw [if_neg (show ¬(re_search_pair hdrStart.data hdrEnd.data
        ("<!--mimic_header_start--> x <!--mimic_header_end-->" : String).data = true)
      from by decide)]
  · intro Z _hZ
    apply strEq_of_data
    unfold generate_new_content
    rw [if_pos (show re_search_pair hdrStart.data hdrEnd.data
      (hdrStart ++ " x " ++ hdrEnd).data = true from by decide)]
    rw [dataMk]
    have h1 : findSub hdrStart.data (hdrStart ++ " x " ++ hdrEnd).data = some 0 := by decide
    have h2 : findSubFrom hdrEnd.data (hdrStart ++ " x " ++ hdrEnd).data
        (0 + hdrStart.data.length + 1) = some 28 := by decide
    rw [reSubAll_step 0 28 (by decide) h1 h2]
    rw [show List.drop (28 + hdrEnd.data.length) (hdrStart ++ " x " ++ hdrEnd).data
        = ([] : List Char) from by decide]
    rw [reSubAll_nil]
    rw [show List.take 0 (hdrStart ++ " x " ++ hdrEnd).data = ([] : List Char)
      from by decide]
    simp [strData_append, hdrStart, hdrEnd, List.append_assoc]

/-- Witness for the amended C8, instantiating both conjuncts. -/
theorem c8_case_sensitive_canonical_tags_witness :
    generate_new_content "w"
        ("<!--mimic_header_start--> x <!--mimic_header_end-->") hdrStart hdrEnd
      = "<!--mimic_header_start--> x <!--mimic_header_end-->" ∧
    generate_new_content "W" (hdrStart ++ " x " ++ hdrEnd) hdrStart hdrEnd
      = hdrStart ++ "\n" ++ "W" ++ "\n" ++ hdrEnd :=
  ⟨c8_case_sensitive_canonical_tags.1 "w",
    c8_case_sensitive_canonical_tags.2 "W" (by decide)⟩

/-- C7: for every target containing the start tag but no end tag at or past
the end of any start-tag occurrence, the engine reports pattern-not-found
(the branch that logs a warning instead of raising) and returns the target
content unchanged. -/
theorem c7_malformed_target_unchanged (src t S E : String)
    (hS : S.data ≠ []) (hE : E.data ≠ [])
    (h1 : ∃ i, occursAt S.data t.data i = true)
    (h2 : ∀ i, i < t.data.length → ∀ j, j < t.data.length →
      occursAt S.data t.data i = true → i + S.data.length ≤ j →
      occursAt E.data t.data j = false) :
    generate_new_content src t S E = t ∧
      re_search_pair S.data E.data t.data = false := by
  obtain ⟨i, hi⟩ := h1
  have hsome := findSub_isSome_of_occursAt hi
  obtain ⟨p, hp⟩ := Option.isSome_iff_exists.mp hsome
  have hplen : p < t.data.length := findSub_lt_length hS hp
  have hoccp : occursAt S.data t.data p = true := occursAt_of_findSub_some hp
  have hnone : findSubFrom E.data t.data (p + S.data.length + 1) = none := by
    apply findSubFrom_eq_none
    intro j hj
    by_cases hjl : j < t.data.length
    · exact h2 p hplen j hjl hoccp (by omega)
    · exact occursAt_eq_false_of_le_length hE (by omega)
  have hsearch : re_search_pair S.data E.data t.data = false := by
    unfold re_search_pair
    rw [hp]
    simp only []
    rw [hnone]
    rfl
  refine ⟨?_, hsearch⟩
  unfold generate_new_content
  rw [if_neg (show ¬(re_search_pair S.data E.data t.data = true) from by
    simp [hsearch])]

/-- Witness for C7: a target with a `HEADER` start tag and no end tag. -/
theorem c7_malformed_target_unchanged_witness :
    generate_new_content "w" ("pre <!--MIMIC_HEADER_START--> post") hdrStart hdrEnd
        = "pre <!--MIMIC_HEADER_START--> post" ∧
      re_search_pair hdrStart.data hdrEnd.data
        ("pre <!--MIMIC_HEADER_START--> post" : String).data = false :=
  c7_malformed_target_unchanged "w" "pre <!--MIMIC_HEADER_START--> post"
    hdrStart hdrEnd (by decide) (by decide) ⟨4, by decide⟩ (by decide)

/-!
### File selection and propagation driver — mimic.py `main`, lines 159-241

The filesystem is modelled as an association list from paths (relative to
the workspace root `/github/workspace/`, so `os.path.relpath(f, root_dir)`
is the path itself) to file states: `some c` is a readable file with
content `c`, `none` a file that exists but whose read raises an I/O error.
`os.walk` / `os.listdir` enumeration order is modelled by list order.
Configuration parsing, git integration and logging (lines 104-158 and
243-253) are peripheral glue outside the model; `mainCore` picks up after
the input-folder existence check, taking the already-cleaned folder names.
-/

abbrev Fs := List (String × Option String)

def fsLookup : Fs → String → Option (Option String)
  | [], _ => none
  | (q, v) :: rest, p => if q = p then some v else fsLookup rest p

/-- `open(p).read()`: succeeds only if the path exists and is readable. -/
def readFs (fs : Fs) (p : String) : Option String :=
  match fsLookup fs p with
  | some (some c) => some c
  | _ => none

/-- Whole-file write of `c` to `p`, creating the file if needed. -/
def fsWrite : Fs → String → String → Fs
  | [], p, c => [(p, some c)]
  | (q, v) :: rest, p, c =>
    if q = p then (p, some c) :: rest else (q, v) :: fsWrite rest p c

/-- Python `s.startswith(pre)`. -/
def pyStartswith (s pre : String) : Bool := beginsWith pre.data s.data

/-- Python `s.endswith(suf)`. -/
def pyEndswith (s suf : String) : Bool := beginsWith suf.data.reverse s.data.reverse

/-- mimic.py lines 89-96 `find_files_with_extensions`: every file whose
name ends in `.ext` for one of the configured extensions, in walk order. -/
def find_files_with_extensions (fs : Fs) (exts : List String) : List String :=
  (fs.map Prod.fst).filter (fun p => exts.any (fun e => pyEndswith p ("." ++ e)))

/-- mimic.py lines 163-164: candidate targets are scanned once from the
root and filtered by
`not os.path.relpath(f, root_dir).startswith(output_folder)`. -/
def selectTargets (fs : Fs) (exts : List String) (outF : String) : List String :=
  (find_files_with_extensions fs exts).filter (fun p => !(pyStartswith p outF))

/-- `os.listdir(dir)` restricted to files: names of entries directly
inside `dir`, in filesystem order. -/
def listdirFiles (fs : Fs) (dir : String) : List String :=
  (fs.map Prod.fst).filterMap (fun p =>
    if pyStartswith p (dir ++ "/") then
      let name := p.drop (dir ++ "/").length
      if name.data.contains '/' then none else some name
    else none)

/-- mimic.py line 160: the Mimic template files of the input folder. -/
def mimicFiles (fs : Fs) (inF : String) : List String :=
  (listdirFiles fs inF).filter (fun f => pyEndswith f ".mimic")

/-- `os.path.splitext` stem: strip the suffix from the last dot that is
preceded by some non-dot character (leading dots never start an
extension). -/
def splitext_stem (f : String) : String :=
  let cs := f.data
  let idxs := (List.range cs.length).filter (fun i =>
    (cs.getD i ' ') == '.' && (cs.take i).any (fun c => c != '.'))
  match idxs.getLast? with
  | none => f
  | some i => ⟨cs.take i⟩

/-- mimic.py lines 83-87 `get_template_identifier`: splitext stem,
uppercased (ASCII `.upper()`). -/
def get_template_identifier (f : String) : String :=
  ⟨(splitext_stem f).data.map Char.toUpper⟩

/-- mimic.py line 176. -/
def startTagOf (identifier : String) : String :=
  "<!--MIMIC_" ++ identifier ++ "_START-->"

/-- mimic.py line 177. -/
def endTagOf (identifier : String) : String :=
  "<!--MIMIC_" ++ identifier ++ "_END-->"

/-- mimic.py lines 189-239: process one candidate target for one template.
Returns the new filesystem and the `modified_files` increment.  A target
read failure is caught by the inner `try` (line 238): logged, target
skipped.  In copy mode the result is written to the mirrored output path
unless an identical readable output file already exists; an unreadable
existing output file only logs a warning and is overwritten. -/
def processTarget (overwrite : Bool) (outF : String) (S E src : String)
    (fs : Fs) (p : String) : Fs × Nat :=
  match readFs fs p with
  | none => (fs, 0)
  | some content =>
    if containsSubstr content S && containsSubstr content E then
      let updated := generate_new_content src content S E
      if overwrite then
        if updated = content then (fs, 0) else (fsWrite fs p updated, 1)
      else
        let outPath := outF ++ "/" ++ p
        match fsLookup fs outPath with
        | some (some existing) =>
          if existing = updated then (fs, 0) else (fsWrite fs outPath updated, 1)
        | _ => (fsWrite fs outPath updated, 1)
    else (fs, 0)

/-- Fold of `processTarget` over the (cached) candidate-target list,
accumulating `modified_files`. -/
def processTargets (overwrite : Bool) (outF : String) (S E src : String) :
    Fs → List String → Fs × Nat
  | fs, [] => (fs, 0)
  | fs, p :: rest =>
    let pr := processTarget overwrite outF S E src fs p
    let r := processTargets overwrite outF S E src pr.1 rest
    (r.1, pr.2 + r.2)

/-- mimic.py lines 169-241: the template loop.  The template read at line
182 is NOT guarded by a per-template handler: a failure propagates to the
top-level `except` (lines 250-253), aborting the remaining run.  Returns
(filesystem, total writes, templates fully processed, aborted). -/
def runTemplates (inF outF : String) (overwrite : Bool) (targets : List String) :
    Fs → List String → Fs × Nat × Nat × Bool
  | fs, [] => (fs, 0, 0, false)
  | fs, t :: rest =>
    let identifier := get_template_identifier t
    let S := startTagOf identifier
    let E := endTagOf identifier
    match readFs fs (inF ++ "/" ++ t) with
    | none => (fs, 0, 0, true)
    | some src =>
      let pr := processTargets overwrite outF S E src fs targets
      let r := runTemplates inF outF overwrite targets pr.1 rest
      (r.1, pr.2 + r.2.1, r.2.2.1 + 1, r.2.2.2)

structure RunOut where
  fs : Fs
  writes : Nat
  templates_done : Nat
  scans : Nat
  aborted : Bool

/-- mimic.py lines 159-241 (propagation core): enumerate templates, scan
candidate targets ONCE (lines 163-164, before the template loop — `scans`
counts invocations of `find_files_with_extensions`), then run the template
loop over that cached list. -/
def mainCore (inF outF : String) (exts : List String) (overwrite : Bool)
    (fs : Fs) : RunOut :=
  let mimics := mimicFiles fs inF
  let targets := selectTargets fs exts outF
  let r := runTemplates inF outF overwrite targets fs mimics
  ⟨r.1, r.2.1, r.2.2.1, 1, r.2.2.2⟩

/-- Refinement comparison definition following the spec's words (§4.5
steps 2-3): a template read failure is logged and skipped, and candidate
targets are re-enumerated at the start of each template's pass.  `scans`
counts selector invocations. -/
def runTemplatesRescan (inF outF : String) (exts : List String)
    (overwrite : Bool) : Fs → List String → Fs × Nat × Nat × Nat
  | fs, [] => (fs, 0, 0, 0)
  | fs, t :: rest =>
    let identifier := get_template_identifier t
    let S := startTagOf identifier
    let E := endTagOf identifier
    match readFs fs (inF ++ "/" ++ t) with
    | none => runTemplatesRescan inF outF exts overwrite fs rest
    | some src =>
      let targets := selectTargets fs exts outF
      let pr := processTargets overwrite outF S E src fs targets
      let r := runTemplatesRescan inF outF exts overwrite pr.1 rest
      (r.1, pr.2 + r.2.1, r.2.2.1 + 1, r.2.2.2 + 1)

/-- Spec-side propagation driver built on `runTemplatesRescan`. -/
def mainCoreRescan (inF outF : String) (exts : List String) (overwrite : Bool)
    (fs : Fs) : RunOut :=
  let mimics := mimicFiles fs inF
  let r := runTemplatesRescan inF outF exts overwrite fs mimics
  ⟨r.1, r.2.1, r.2.2.1, r.2.2.2, false⟩

theorem beginsWith_append_left (a b s : List Char)
    (h : beginsWith (a ++ b) s = true) : beginsWith a s = true := by
  induction a generalizing s with
  | nil => rfl
  | cons c cs ih =>
    cases s with
    | nil => simp [beginsWith] at h
    | cons d ds =>
      simp only [List.cons_append, beginsWith, Bool.and_eq_true] at h ⊢
      exact ⟨h.1, ih ds h.2⟩

/-- C9: every file in the selected target list lies outside the output
root: the scan filter (mimic.py line 164) removes every path whose
relative form starts with the output folder, in particular everything
under `outputFolder/`. -/
theorem c9_targets_not_under_output_root (fs : Fs) (exts : List String)
    (outF p : String) (hp : p ∈ selectTargets fs exts outF) :
    pyStartswith p (outF ++ "/") = false := by
  have hmem := List.mem_filter.mp hp
  have hout : pyStartswith p outF = false := by
    have h2 := hmem.2
    simpa using h2
  cases hx : pyStartswith p (outF ++ "/") with
  | false => rfl
  | true =>
    unfold pyStartswith at hx
    rw [strData_append] at hx
    have hbw := beginsWith_append_left outF.data ("/" : String).data p.data hx
    unfold pyStartswith at hout
    rw [hbw] at hout
    exact absurd hout (by simp)

/-- Witness for C9 on a two-file tree with an output subtree. -/
theorem c9_targets_not_under_output_root_witness :
    pyStartswith "a.md" ("out" ++ "/") = false :=
  c9_targets_not_under_output_root
    [("a.md", some "x"), ("out/b.md", some "y")] ["md"] "out" "a.md" (by decide)

/-- In-place workspace whose template content contains its own end tag. -/
def fsTagInTemplate : Fs :=
  [("tpl/h.mimic", some "a<!--MIMIC_H_END-->b"),
   ("t.md", some "<!--MIMIC_H_START-->x<!--MIMIC_H_END-->")]

/-- C3 counterexample: when the template content itself contains the end
tag, re-substitution on the second run finds a shorter region and rewrites
the target again — the second run performs a write, not zero. -/
theorem c3_counterexample :
    (mainCore "tpl" "out" ["md"] true fsTagInTemplate).writes = 1 ∧
      (mainCore "tpl" "out" ["md"] true
        (mainCore "tpl" "out" ["md"] true fsTagInTemplate).fs).writes ≠ 0 := by
  constructor
  · decide
  · decide

/-- In-place workspace with a well-behaved template. -/
def fsStable : Fs :=
  [("tpl/g.mimic", some "Copyright"),
   ("d.md", some "<!--MIMIC_G_START-->\nold\n<!--MIMIC_G_END-->")]

/-- C3 amended: for every target, when the substituted content equals the
existing destination content byte-for-byte the write is skipped — in
in-place mode (first conjunct) and in copy mode (second conjunct) — and
consequently a second run performs zero writes whenever each template's
substitution is stable, e.g. when template contents contain no tag text
(third conjunct); full two-run idempotence fails for templates whose
content contains their own end tag (see the counterexample). -/
theorem c3_skip_write_when_unchanged :
    (∀ outF S E src : String, ∀ fs : Fs, ∀ p c : String,
      readFs fs p = some c → generate_new_content src c S E = c →
      processTarget true outF S E src fs p = (fs, 0)) ∧
    (∀ outF S E src : String, ∀ fs : Fs, ∀ p c u : String,
      readFs fs p = some c →
      fsLookup fs (outF ++ "/" ++ p) = some (some u) →
      generate_new_content src c S E = u →
      processTarget false outF S E src fs p = (fs, 0)) ∧
    ((mainCore "tpl" "out" ["md"] true fsStable).writes = 1 ∧
      (mainCore "tpl" "out" ["md"] true
        (mainCore "tpl" "out" ["md"] true fsStable).fs).writes = 0) := by
  refine ⟨?_, ?_, ?_, ?_⟩
  · intro outF S E src fs p c h1 h2
    simp only [processTarget, h1]
    by_cases htag : (containsSubstr c S && containsSubstr c E) = true
    · simp [htag, h2]
    · simp [htag]
  · intro outF S E src fs p c u h1 h2 h3
    simp only [processTarget, h1]
    by_cases htag : (containsSubstr c S && containsSubstr c E) = true
    · simp [htag, h2, h3]
    · simp [htag]
  · decide
  · decide

/-- Witness for amended C3: an already-substituted in-place target is not
rewritten. -/
theorem c3_skip_write_when_unchanged_witness :
    processTarget true "out" hdrStart hdrEnd "v"
        [("x.md", some (hdrStart ++ "\n" ++ "v" ++ "\n" ++ hdrEnd))] "x.md"
      = ([("x.md", some (hdrStart ++ "\n" ++ "v" ++ "\n" ++ hdrEnd))], 0) :=
  c3_skip_write_when_unchanged.1 "out" hdrStart hdrEnd "v"
    [("x.md", some (hdrStart ++ "\n" ++ "v" ++ "\n" ++ hdrEnd))] "x.md"
    (hdrStart ++ "\n" ++ "v" ++ "\n" ++ hdrEnd) (by decide) (by decide)

/-- Copy-mode workspace with one tagged and one untagged selected file. -/
def fsCopy : Fs :=
  [("tpl/h.mimic", some "New"),
   ("a.md", some "<!--MIMIC_H_START-->x<!--MIMIC_H_END-->"),
   ("plain.md", some "hello")]

/-- C4 counterexample: in copy mode the selected file `plain.md` (no tags)
is never materialized under the output root — there is no upfront mirror
copy of every selected source file; only the tagged, changed file is
written. -/
theorem c4_counterexample :
    selectTargets fsCopy ["md"] "out" = ["a.md", "plain.md"] ∧
    fsLookup (mainCore "tpl" "out" ["md"] false fsCopy).fs "out/plain.md" = none ∧
    fsLookup (mainCore "tpl" "out" ["md"] false fsCopy).fs "out/a.md"
      = some (some ("<!--MIMIC_H_START-->" ++ "\n" ++ "New" ++ "\n"
        ++ "<!--MIMIC_H_END-->")) := by
  refine ⟨?_, ?_, ?_⟩
  · decide
  · decide
  · decide

/-- C4 amended: in copy mode there is no upfront mirror of the selected
tree; a source file is written into the output tree (at its root-relative
path) only when it contains the tag pair — a tagless file leaves the
filesystem untouched (first conjunct), while a tagged file with no
existing output copy is written with the substituted content (second
conjunct). -/
theorem c4_copy_only_tagged_files :
    (∀ outF S E src : String, ∀ fs : Fs, ∀ p c : String,
      readFs fs p = some c →
      (containsSubstr c S && containsSubstr c E) = false →
      processTarget false outF S E src fs p = (fs, 0)) ∧
    (∀ outF S E src : String, ∀ fs : Fs, ∀ p c : String,
      readFs fs p = some c →
      (containsSubstr c S && containsSubstr c E) = true →
      fsLookup fs (outF ++ "/" ++ p) = none →
      processTarget false outF S E src fs p
        = (fsWrite fs (outF ++ "/" ++ p) (generate_new_content src c S E), 1)) := by
  constructor
  · intro outF S E src fs p c h1 htag
    simp only [processTarget, h1]
    simp [htag]
  · intro outF S E src fs p c h1 htag hlook
    simp only [processTarget, h1]
    simp [htag, hlook]

/-- Witness for amended C4: a tagless file is not copied. -/
theorem c4_copy_only_tagged_files_witness :
    processTarget false "out" hdrStart hdrEnd "s"
        [("n.md", some "no tags here")] "n.md"
      = ([("n.md", some "no tags here")], 0) :=
  c4_copy_only_tagged_files.1 "out" hdrStart hdrEnd "s"
    [("n.md", some "no tags here")] "n.md" "no tags here" (by decide) (by decide)

/-- Workspace with two readable templates. -/
def fsTwoTemplates : Fs :=
  [("tpl/a.mimic", some "A"), ("tpl/b.mimic", some "B"), ("t.md", some "x")]

/-- C5 counterexample: with two templates, the source driver invokes the
file selector exactly once for the whole run (before the template loop,
mimic.py line 163), not once at the start of each template's pass as the
claim states — the spec-side per-template re-scanning driver would invoke
it twice. -/
theorem c5_counterexample :
    (mimicFiles fsTwoTemplates "tpl").length = 2 ∧
    (mainCore "tpl" "out" ["md"] true fsTwoTemplates).scans = 1 ∧
    (mainCoreRescan "tpl" "out" ["md"] true fsTwoTemplates).scans = 2 ∧
    (mainCore "tpl" "out" ["md"] true fsTwoTemplates).scans
      ≠ (mimicFiles fsTwoTemplates "tpl").length := by
  refine ⟨?_, ?_, ?_, ?_⟩
  · decide
  · decide
  · decide
  · decide

/-- C5 amended: the candidate-target list is enumerated exactly once per
run, before the template loop, and that cached list is reused for every
template's pass. -/
theorem c5_targets_scanned_once (inF outF : String) (exts : List String)
    (ow : Bool) (fs : Fs) : (mainCore inF outF exts ow fs).scans = 1 := rfl

/-- Workspace whose first template is unreadable. -/
def fsBadTemplate : Fs :=
  [("tpl/a.mimic", none), ("tpl/b.mimic", some "B"),
   ("t.md", some "<!--MIMIC_B_START-->q<!--MIMIC_B_END-->")]

/-- C6 counterexample: a template read failure does not merely skip that
template — the run aborts: the readable second template `b.mimic` is never
processed (zero templates done, zero writes) even though a target carries
its tag pair. -/
theorem c6_counterexample :
    mimicFiles fsBadTemplate "tpl" = ["a.mimic", "b.mimic"] ∧
    readFs fsBadTemplate ("tpl" ++ "/" ++ "b.mimic") = some "B" ∧
    (mainCore "tpl" "out" ["md"] true fsBadTemplate).aborted = true ∧
    (mainCore "tpl" "out" ["md"] true fsBadTemplate).templates_done = 0 ∧
    (mainCore "tpl" "out" ["md"] true fsBadTemplate).writes = 0 := by
  refine ⟨?_, ?_, ?_, ?_, ?_⟩
  · decide
  · decide
  · decide
  · decide
  · decide

/-- C6 amended: if reading a template file fails, the exception escapes
the template loop (there is no per-template handler around mimic.py line
182) to the top-level handler: the failure is logged and the entire
remaining run is aborted — no write happens, no later template is
processed. -/
theorem c6_template_read_error_aborts_run (inF outF : String)
    (exts : List String) (ow : Bool) (fs : Fs) (t : String)
    (rest : List String) (h1 : mimicFiles fs inF = t :: rest)
    (h2 : readFs fs (inF ++ "/" ++ t) = none) :
    mainCore inF outF exts ow fs = ⟨fs, 0, 0, 1, true⟩ := by
  simp only [mainCore, h1, runTemplates, h2]

/-- Witness for amended C6 on the unreadable-template workspace. -/
theorem c6_template_read_error_aborts_run_witness :
    mainCore "tpl" "out" ["md"] true fsBadTemplate
      = ⟨fsBadTemplate, 0, 0, 1, true⟩ :=
  c6_template_read_error_aborts_run "tpl" "out" ["md"] true fsBadTemplate
    "a.mimic" ["b.mimic"] (by decide) (by decide)

end Mimic
